import Mathlib

/-!
Verification development for the dc.js chart library core: the filter
coordination protocol of `BaseMixin` (src/base/base-mixin.ts) and the
sunburst ring-size policies.  JavaScript values relevant to the filter
protocol are embedded as an inductive value type; the pluggable filter
handlers are function fields of a chart record, mirroring the strategy
fields of the source class.
-/

namespace DC

/-- A primitive JavaScript value usable as a filter or a filter key segment. -/
inductive JScalar where
  | int (n : Int)
  | str (s : String)
deriving DecidableEq, Repr

/-- A JavaScript value that may appear as an element of a top-level filter
array: either a primitive or an array of primitives.  The `hasIsFiltered`
flag records whether the array value carries an `isFiltered` property
(as the dc filter objects such as `HierarchyFilter` do). -/
inductive JElem where
  | prim (v : JScalar)
  | arr (elems : List JScalar) (hasIsFiltered : Bool)
deriving DecidableEq, Repr

/-- A top-level JavaScript filter value passed to `BaseMixin.filter` or stored
in the chart's filter list: a primitive, or an array (possibly carrying an
`isFiltered` property) whose elements are primitives or arrays of primitives. -/
inductive JVal where
  | prim (v : JScalar)
  | arr (elems : List JElem) (hasIsFiltered : Bool)
deriving DecidableEq, Repr

/-- View an array element as a top-level value (used when the elements of a
path-of-paths wrapper are toggled individually). -/
def JElem.toVal : JElem → JVal
  | .prim v => .prim v
  | .arr xs h => .arr (xs.map JElem.prim) h

/-- Embedding of the JavaScript `<=` comparison on primitive values:
same-kind primitives compare by their natural order. -/
def JScalar.jle : JScalar → JScalar → Bool
  | .int a, .int b => decide (a ≤ b)
  | .str a, .str b => decide (a ≤ b)
  | _, _ => false

/-- Lexicographic `<=` on lists, given an element-wise `<=`. -/
def lexLe (le : α → α → Bool) : List α → List α → Bool
  | [], _ => true
  | _ :: _, [] => false
  | a :: as, b :: bs => le a b && (!(le b a) || lexLe le as bs)

/-- Embedding of the JavaScript `<=` comparison on array elements. -/
def JElem.jle : JElem → JElem → Bool
  | .prim a, .prim b => a.jle b
  | .arr xs _, .arr ys _ => lexLe JScalar.jle xs ys
  | _, _ => false

/-- Embedding of the JavaScript `<=` comparison on top-level filter values;
arrays compare by content (their string coercion), the `isFiltered` property
does not take part in the comparison. -/
def JVal.jle : JVal → JVal → Bool
  | .prim a, .prim b => a.jle b
  | .arr xs _, .arr ys _ => lexLe JElem.jle xs ys
  | _, _ => false

/-- The crossfilter dimension interface seen by `applyFilters`: at this layer
only the presence of a dimension and the optional list returned by the
pluggable filter handler are observable (`_defaultFilterHandler` and its
dimension effects are embedded separately below). -/
structure Chart where
  filters : List JVal
  hasDimension : Bool
  hasFilterHandler : List JVal → Option JVal → Bool
  addFilterHandler : List JVal → JVal → List JVal
  removeFilterHandler : List JVal → JVal → List JVal
  resetFilterHandler : List JVal → List JVal
  filterHandler : List JVal → Option (List JVal)

/-- `_defaultHasFilterHandler` from base-mixin.ts: a `null`/`undefined` filter
asks whether any filter is active; otherwise some entry must contain the value
(`filter <= f && filter >= f`). -/
def _defaultHasFilterHandler (filters : List JVal) (filter : Option JVal) : Bool :=
  match filter with
  | none => decide (filters.length > 0)
  | some f => filters.any (fun g => f.jle g && g.jle f)

/-- `_defaultRemoveFilterHandler` from base-mixin.ts: splice out the first
entry with `filters[i] <= filter && filters[i] >= filter` and stop. -/
def _defaultRemoveFilterHandler (filters : List JVal) (filter : JVal) : List JVal :=
  match filters with
  | [] => []
  | g :: rest =>
      if g.jle filter && filter.jle g then rest
      else g :: _defaultRemoveFilterHandler rest filter

/-- `_defaultAddFilterHandler` from base-mixin.ts: push the filter. -/
def _defaultAddFilterHandler (filters : List JVal) (filter : JVal) : List JVal :=
  filters ++ [filter]

/-- `_defaultResetFilterHandler` from base-mixin.ts: return a fresh empty list. -/
def _defaultResetFilterHandler (_filters : List JVal) : List JVal := []

/-- A chart with the default pluggable handlers, no bound dimension and the
given starting filter list. -/
def mkDefaultChart (filters : List JVal) : Chart :=
  { filters := filters
    hasDimension := false
    hasFilterHandler := _defaultHasFilterHandler
    addFilterHandler := _defaultAddFilterHandler
    removeFilterHandler := _defaultRemoveFilterHandler
    resetFilterHandler := _defaultResetFilterHandler
    filterHandler := fun _ => none }

namespace BaseMixin

/-- The source condition
`filter instanceof Array && filter[0] instanceof Array && !filter.isFiltered`:
the argument is an array, its first element is an array, and it carries no
`isFiltered` property. -/
def isPathOfPaths : JVal → Bool
  | .arr (JElem.arr _ _ :: _) hasIF => !hasIF
  | _ => false

/-- The elements of `filter[0]`, toggled individually by the path-of-paths
branch of `BaseMixin.filter`. -/
def innerElems : JVal → List JElem
  | .arr (JElem.arr xs _ :: _) _ => xs.map JElem.prim
  | _ => []

/-- `BaseMixin.applyFilters`: when a dimension is bound, run the filter
handler; a truthy result becomes the new authoritative filter list. -/
def applyFilters (c : Chart) (filters : List JVal) : List JVal :=
  if c.hasDimension then
    match c.filterHandler filters with
    | some fs => fs
    | none => filters
  else filters

/-- One filter toggle as performed inside `BaseMixin.filter`: remove via the
remove handler if the has handler reports the value present, else add. -/
def toggleOne (c : Chart) (filters : List JVal) (f : JVal) : List JVal :=
  if c.hasFilterHandler filters (some f) then c.removeFilterHandler filters f
  else c.addFilterHandler filters f

/-- The no-argument overload of `BaseMixin.filter`: first active filter or
`null`. -/
def filterGet (c : Chart) : Option JVal :=
  match c.filters with
  | [] => none
  | f :: _ => some f

/-- The argument-taking overload of `BaseMixin.filter` from base-mixin.ts:
a path-of-paths wrapper toggles each element of its first inner array, `null`
resets the list, anything else is toggled as a single unit; the resulting list
is pushed through `applyFilters` and stored. -/
def filter (c : Chart) (filter : Option JVal) : Chart :=
  let filters : List JVal :=
    match filter with
    | some f =>
        if isPathOfPaths f then
          (innerElems f).foldl (fun fs e => toggleOne c fs e.toVal) c.filters
        else
          toggleOne c c.filters f
    | none => c.resetFilterHandler c.filters
  { c with filters := applyFilters c filters }

/-- `BaseMixin.hasFilter`: delegate to the pluggable has-filter handler. -/
def hasFilter (c : Chart) (filter : Option JVal) : Bool :=
  c.hasFilterHandler c.filters filter

end BaseMixin

/-- The dispatch that claim C1 describes, written from the claim's words: the
per-element toggling branch is taken only for an array whose SOLE element is
itself an array and which carries no `isFiltered` property; every other
non-null value is toggled as a single unit. -/
def claimSoleWrapper : JVal → Bool
  | .arr [JElem.arr _ _] hasIF => !hasIF
  | _ => false

/-- Resulting filter list according to claim C1's wording (before the push to
the dimension), for an argument-taking call with a non-null value. -/
def claimDispatchFilters (c : Chart) (f : JVal) : List JVal :=
  if claimSoleWrapper f then
    (BaseMixin.innerElems f).foldl (fun fs e => BaseMixin.toggleOne c fs e.toVal) c.filters
  else
    BaseMixin.toggleOne c c.filters f

/-- The wrapper condition of the amended claim C1: the per-element toggling
branch is taken for an array whose FIRST element is itself an array and which
carries no `isFiltered` property. -/
def amendedWrapperCond : JVal → Bool
  | .arr (JElem.arr _ _ :: _) hasIF => !hasIF
  | _ => false

/-- Resulting filter list according to the amended claim C1's wording (before
the push to the dimension), for an argument-taking call with a non-null
value. -/
def amendedDispatchFilters (c : Chart) (f : JVal) : List JVal :=
  if amendedWrapperCond f then
    (BaseMixin.innerElems f).foldl (fun fs e => BaseMixin.toggleOne c fs e.toVal) c.filters
  else
    BaseMixin.toggleOne c c.filters f

/-! ### The default filter handler and its dimension effects -/

/-- A filter entry as seen by `_defaultFilterHandler`: either a plain value
(no `isFiltered` property) or a structured dc filter object carrying an
`isFiltered` predicate and a `filterType` tag. -/
inductive CFilter (α : Type) where
  | plain (v : α)
  | structured (pred : α → Bool) (filterType : Option String)

/-- Whether a filter entry carries an `isFiltered` property. -/
def CFilter.hasIsFiltered : CFilter α → Bool
  | .plain _ => false
  | .structured _ _ => true

/-- The `filterType` property of a filter entry (`undefined` on plain values). -/
def CFilter.filterTypeOf : CFilter α → Option String
  | .plain _ => none
  | .structured _ t => t

/-- The filter mode installed on the crossfilter dimension by
`_defaultFilterHandler` (`dimension.filter(null)` / `filterExact` /
`filterRange` / `filterFunction`). -/
inductive DimFilterState (α : Type) where
  | cleared
  | exact (f : CFilter α)
  | range (f : CFilter α)
  | func (p : α → Bool)

/-- The body of the `dimension.filterFunction` predicate installed by
`_defaultFilterHandler`: a filter with an `isFiltered` property accepts via
that predicate, a plain one via `filter <= d && filter >= d`. -/
def acceptOne [LinearOrder α] (f : CFilter α) (d : α) : Bool :=
  match f with
  | .structured p _ => p d
  | .plain v => decide (v ≤ d) && decide (d ≤ v)

/-- `_defaultFilterHandler` from base-mixin.ts: dispatch on the filter list
shape, install the corresponding dimension filter, and return the list. -/
def _defaultFilterHandler [LinearOrder α] (filters : List (CFilter α)) :
    DimFilterState α × List (CFilter α) :=
  match filters with
  | [] => (DimFilterState.cleared, filters)
  | [f] =>
      if !f.hasIsFiltered then (DimFilterState.exact f, filters)
      else if f.filterTypeOf == some "RangedFilter" then (DimFilterState.range f, filters)
      else (DimFilterState.func (fun d => filters.any (fun g => acceptOne g d)), filters)
  | _ =>
      (DimFilterState.func (fun d => filters.any (fun g => acceptOne g d)), filters)

/-! ### Mandatory attribute checks at render time -/

/-- Errors thrown by the chart core. -/
inductive DCError where
  | invalidState (msg : String)
  | badArgument (msg : String)
deriving DecidableEq, Repr

/-- The chart state relevant to `checkForMandatoryAttributes`: the truthiness
of the `dimension` and `group` attribute accessors, the configured mandatory
attribute list, and the chart's anchor name. -/
structure MChart where
  dimension : Bool
  group : Bool
  mandatoryAttributesList : List String
  anchorName : String

/-- Truthiness of `this[a] && this[a]()` for the attribute named `a`;
an unknown attribute name has no accessor and is falsy. -/
def MChart.attrTruthy (c : MChart) (a : String) : Bool :=
  if a = "dimension" then c.dimension
  else if a = "group" then c.group
  else false

/-- The message of the `InvalidStateException` thrown by
`checkForMandatoryAttributes`. -/
def mandatoryMsg (a anchor : String) : String :=
  "Mandatory attribute chart." ++ a ++ " is missing on chart[#" ++ anchor ++ "]"

/-- `BaseMixin.checkForMandatoryAttributes` from base-mixin.ts. -/
def checkForMandatoryAttributes (c : MChart) (a : String) : Except DCError Unit :=
  if !(c.attrTruthy a) then
    Except.error (DCError.invalidState (mandatoryMsg a c.anchorName))
  else Except.ok ()

/-- `BaseMixin.render` from base-mixin.ts, at the granularity of its error
behavior: walk the mandatory attribute list, propagating the first thrown
exception; `_doRender` of the base class does nothing and returns the chart. -/
def render (c : MChart) : Except DCError MChart := do
  c.mandatoryAttributesList.forM (checkForMandatoryAttributes c)
  pure c

/-! ### Commit handler gating in redrawGroup / renderGroup -/

/-- Observable effects of `redrawGroup`/`renderGroup`, in order. -/
inductive GroupEvent where
  | commitCalled (isRender : Bool)
  | errorLogged (msg : String)
  | redrawAllCalled
  | renderAllCalled
deriving DecidableEq, Repr

/-- A chart's optional commit handler; the function gives, for the boolean
flag the handler is invoked with, the error (if any) it reports to its
error-first continuation callback. -/
structure GChart where
  commitHandler : Option (Bool → Option String)

/-- `BaseMixin.redrawGroup` from base-mixin.ts: with a commit handler, invoke
it with `false` and redraw-all only when no error is reported (an error is
logged instead); without one, redraw-all directly. -/
def redrawGroup (c : GChart) : List GroupEvent :=
  match c.commitHandler with
  | some h =>
      GroupEvent.commitCalled false ::
        (match h false with
         | some err => [GroupEvent.errorLogged err]
         | none => [GroupEvent.redrawAllCalled])
  | none => [GroupEvent.redrawAllCalled]

/-- `BaseMixin.renderGroup` from base-mixin.ts.  Note: the source invokes the
commit handler with the literal `false` here as well (line 774), not `true`. -/
def renderGroup (c : GChart) : List GroupEvent :=
  match c.commitHandler with
  | some h =>
      GroupEvent.commitCalled false ::
        (match h false with
         | some err => [GroupEvent.errorLogged err]
         | none => [GroupEvent.renderAllCalled])
  | none => [GroupEvent.renderAllCalled]

/-! ### Ordered group computation (`_computeOrderedGroups`) -/

/-- A heap of JavaScript arrays, identified by index, making aliasing and
in-place mutation observable. -/
structure ArrayStore (α : Type) where
  arrays : List (List α)

/-- `Array.from(data)`: allocate a fresh array holding a copy of the array at
index `i`, returning the new store and the fresh index. -/
def allocCopy (st : ArrayStore α) (i : Nat) : ArrayStore α × Nat :=
  ({ arrays := st.arrays ++ [st.arrays.getD i []] }, st.arrays.length)

/-- `Array.prototype.sort(cmp)`: sort the array at index `i` in place. -/
def sortInPlace (st : ArrayStore α) (i : Nat) (le : α → α → Bool) : ArrayStore α :=
  { arrays := st.arrays.set i ((st.arrays.getD i []).mergeSort le) }

/-- `BaseMixin._computeOrderedGroups` from base-mixin.ts: clone the array
before sorting (otherwise `Array.sort` sorts in place), then sort the clone
ascending by the chart's ordering accessor. -/
def _computeOrderedGroups [LinearOrder β] (ordering : α → β)
    (st : ArrayStore α) (i : Nat) : ArrayStore α × Nat :=
  let alloc := allocCopy st i
  (sortInPlace alloc.1 alloc.2 (fun a b => decide (ordering a ≤ ordering b)), alloc.2)

/-! ### Sunburst ring-size policies

The sunburst chart source is not part of this repository snapshot (only its
test suite is), so the ring-size machinery below is modelled from the spec. -/

/-- Modelled from the spec: the value returned by a caller-supplied ring-size
percentage function — either an array of fractions or a non-array value
(the sunburst chart source is missing from the snapshot). -/
inductive PctResult where
  | arr (xs : List Rat)
  | nonArray
deriving Repr

/-- Modelled from the spec: a ring-size policy of the sunburst chart — the
default policy, or a caller-supplied relative-percentage function
(the sunburst chart source is missing from the snapshot). -/
inductive RingSizes where
  | defaultRingSizes
  | relativeRingSizes (pct : Nat → PctResult)

/-- Modelled from the spec: the equal ring-size policy gives every ring the
fraction `1 / ringCount` (the sunburst chart source is missing from the
snapshot). -/
def equalRingSizes : RingSizes :=
  RingSizes.relativeRingSizes (fun n => PctResult.arr (List.replicate n ((n : Rat)⁻¹)))

/-- Modelled from the spec: floating tolerance for the fraction-sum check
(the sunburst chart source is missing from the snapshot). -/
def NEGLIGIBLE_NUMBER : Rat := 1 / 10 ^ 10

/-- Modelled from the spec: validation of a caller-supplied percentage
function's result, performed lazily at render time — a BadArgument error when
the result is a non-array, has the wrong length, or its fractions do not sum
to 1 within tolerance (the sunburst chart source is missing from the
snapshot). -/
def validateRelativeRingSizes (res : PctResult) (ringCount : Nat) :
    Except DCError (List Rat) :=
  match res with
  | PctResult.nonArray =>
      Except.error (DCError.badArgument "relativeRingSizes function must return an array")
  | PctResult.arr xs =>
      if xs.length ≠ ringCount then
        Except.error (DCError.badArgument
          "number of relativeRingSizes does not match number of rings")
      else if |xs.sum - 1| > NEGLIGIBLE_NUMBER then
        Except.error (DCError.badArgument "relativeRingSizes must sum to 1")
      else Except.ok xs

/-- Modelled from the spec: the weight the default policy gives ring `k`
(`k ≥ 1`), a monotonically decreasing weight by depth so that outer rings are
proportionally thinner (the sunburst chart source is missing from the
snapshot). -/
def defaultRingWeight (k : Nat) : Rat := ((k : Rat))⁻¹

/-- Modelled from the spec: sum of the default weights over rings 1..n. -/
def defaultWeightSum (n : Nat) : Rat :=
  ((List.range n).map (fun i => defaultRingWeight (i + 1))).sum

/-- Modelled from the spec: the radius fraction of each ring 1..n under the
default policy, the normalized decreasing weights. -/
def defaultRingFractions (n : Nat) : List Rat :=
  (List.range n).map (fun i => defaultRingWeight (i + 1) / defaultWeightSum n)

/-- Modelled from the spec: the sunburst chart state relevant to ring sizing
(the sunburst chart source is missing from the snapshot). -/
structure SunburstChart where
  innerRadius : Rat
  outerRadius : Rat
  ringCount : Nat
  ringSizes : RingSizes

/-- Modelled from the spec: `chart.ringSizes(policy)` merely stores the policy;
no validation happens at configuration time. -/
def ringSizesSet (c : SunburstChart) (p : RingSizes) : SunburstChart :=
  { c with ringSizes := p }

/-- Modelled from the spec: the ring fractions produced at render time —
the default policy computes its own fractions without validation, a
caller-supplied function is validated lazily here. -/
def ringFractions (c : SunburstChart) : Except DCError (List Rat) :=
  match c.ringSizes with
  | RingSizes.defaultRingSizes => Except.ok (defaultRingFractions c.ringCount)
  | RingSizes.relativeRingSizes pct =>
      validateRelativeRingSizes (pct c.ringCount) c.ringCount

/-- Modelled from the spec: `render()` at the granularity of ring sizing —
compute the validated ring fractions and scale them by the remaining radius
`outerRadius - innerRadius`, giving each ring's pixel thickness. -/
def renderSunburst (c : SunburstChart) : Except DCError (List Rat) :=
  (ringFractions c).map (List.map (fun q => (c.outerRadius - c.innerRadius) * q))

/-! ## Helper lemmas -/

theorem jscalarJleRefl (v : JScalar) : v.jle v = true := by
  cases v <;> simp [JScalar.jle]

theorem lexLe_refl (le : α → α → Bool) (l : List α)
    (h : ∀ a ∈ l, le a a = true) : lexLe le l l = true := by
  induction l with
  | nil => rfl
  | cons a as ih =>
      have ha : le a a = true := h a (List.mem_cons_self a as)
      have : lexLe le as as = true := ih (fun b hb => h b (List.mem_cons_of_mem a hb))
      simp [lexLe, ha, this]

theorem jelemJleRefl (e : JElem) : e.jle e = true := by
  cases e with
  | prim v => simpa [JElem.jle] using jscalarJleRefl v
  | arr xs h => simpa [JElem.jle] using lexLe_refl JScalar.jle xs (fun a _ => jscalarJleRefl a)

theorem jvalJleRefl (v : JVal) : v.jle v = true := by
  cases v with
  | prim a => simpa [JVal.jle] using jscalarJleRefl a
  | arr xs h => simpa [JVal.jle] using lexLe_refl JElem.jle xs (fun a _ => jelemJleRefl a)

theorem removeHandler_append (L : List JVal) (v : JVal)
    (h : ∀ g ∈ L, (g.jle v && v.jle g) = false) :
    _defaultRemoveFilterHandler (L ++ [v]) v = L := by
  induction L with
  | nil => simp [_defaultRemoveFilterHandler, jvalJleRefl]
  | cons g rest ih =>
      have hg : (g.jle v && v.jle g) = false := h g (List.mem_cons_self g rest)
      have hrest := ih (fun x hx => h x (List.mem_cons_of_mem g hx))
      simp [_defaultRemoveFilterHandler, hg, hrest]

theorem map_range_add_three (g : Nat → γ) (m : Nat) :
    (List.range (m + 3)).map g =
      g 0 :: g 1 :: (List.range (m + 1)).map (fun i => g (i + 2)) := by
  rw [List.range_succ_eq_map, List.range_succ_eq_map]
  simp only [List.map_cons, List.map_map, Function.comp]
  refine congrArg _ (congrArg _ ?_)
  apply List.map_congr_left
  intro i _
  rfl

theorem set_append_length (l : List γ) (x y : γ) :
    (l ++ [x]).set l.length y = l ++ [y] := by
  induction l with
  | nil => rfl
  | cons a as ih => simp [List.set, ih]

theorem getD_append_length (l : List γ) (x d : γ) :
    (l ++ [x]).getD l.length d = x := by
  induction l with
  | nil => rfl
  | cons a as ih => simpa using ih

theorem getD_append_lt (l l2 : List γ) (i : Nat) (d : γ) (h : i < l.length) :
    (l ++ l2).getD i d = l.getD i d := by
  simp [List.getD, List.getElem?_append, h]

/-! ## Claim theorems -/

/-- C1 counterexample: the source takes the per-element toggling branch
whenever the first element of the argument array is itself an array
(`filter[0] instanceof Array`), so for the value `[[1], 2]` — which is not an
array whose sole element is an array — the filter list after `filter([[1], 2])`
differs from the single-unit toggle the claim prescribes. -/
theorem filter_dispatch_claim_cex :
    (BaseMixin.filter (mkDefaultChart [])
        (some (JVal.arr [JElem.arr [JScalar.int 1] false,
                         JElem.prim (JScalar.int 2)] false))).filters ≠
      claimDispatchFilters (mkDefaultChart [])
        (JVal.arr [JElem.arr [JScalar.int 1] false,
                   JElem.prim (JScalar.int 2)] false) := by
  decide

/-- C1 (amended): for every chart, the no-argument `filter()` returns the
first entry of the filter list (or `null`), an argument-taking `filter(v)`
produces exactly the filter list of the amended dispatch (per-element toggling
when the FIRST element of the argument array is an array and no `isFiltered`
property is present; otherwise a single-unit toggle via the has/remove/add
handlers) pushed through `applyFilters`, and the call returns the chart
itself with only its filter list updated. -/
theorem filter_dispatch_amended (c : Chart) (v : JVal) :
    BaseMixin.filterGet c = c.filters.head? ∧
    (BaseMixin.filter c (some v)).filters = BaseMixin.applyFilters c (amendedDispatchFilters c v) ∧
    BaseMixin.filter c (some v) = { c with filters := (BaseMixin.filter c (some v)).filters } := by
  have hcond : amendedWrapperCond v = BaseMixin.isPathOfPaths v := by
    cases v with
    | prim a => rfl
    | arr es h =>
        cases es with
        | nil => rfl
        | cons e tl => cases e <;> rfl
  refine ⟨?_, ?_, ?_⟩
  · cases hL : c.filters <;> simp [BaseMixin.filterGet, hL]
  · by_cases h : BaseMixin.isPathOfPaths v = true
    · simp [BaseMixin.filter, amendedDispatchFilters, hcond, h]
    · simp only [Bool.not_eq_true] at h
      simp [BaseMixin.filter, amendedDispatchFilters, hcond, h, BaseMixin.toggleOne]
  · simp [BaseMixin.filter]

/-- C2: for every chart with the default handlers and no bound dimension and
every starting filter list, `filter(null)` leaves the filter list empty and a
subsequent no-argument `hasFilter()` returns `false`. -/
theorem filter_null_resets (L : List JVal) :
    (BaseMixin.filter (mkDefaultChart L) none).filters = [] ∧
    BaseMixin.hasFilter (BaseMixin.filter (mkDefaultChart L) none) none = false := by
  constructor <;>
    simp [BaseMixin.filter, BaseMixin.applyFilters, mkDefaultChart,
      _defaultResetFilterHandler, BaseMixin.hasFilter, _defaultHasFilterHandler]

/-- C3: for every chart with the default has/add/remove filter handlers and no
bound dimension, and every filter value `v` (toggled as a single unit, i.e.
not a path-of-paths wrapper) not currently in the filter list, `filter(v)`
followed by `filter(v)` yields a filter list content-equal to the starting
list. -/
theorem filter_toggle_symmetry (L : List JVal) (v : JVal)
    (hw : BaseMixin.isPathOfPaths v = false)
    (hnot : _defaultHasFilterHandler L (some v) = false) :
    List.Perm
      (BaseMixin.filter (BaseMixin.filter (mkDefaultChart L) (some v)) (some v)).filters
      L := by
  have step1 : BaseMixin.filter (mkDefaultChart L) (some v) = mkDefaultChart (L ++ [v]) := by
    simp [BaseMixin.filter, BaseMixin.applyFilters, BaseMixin.toggleOne, mkDefaultChart,
      hw, hnot, _defaultAddFilterHandler]
  rw [step1]
  have hmem : ∀ g ∈ L, (g.jle v && v.jle g) = false := by
    intro g hg
    have hany : L.any (fun x => v.jle x && x.jle v) = false := by
      simpa [_defaultHasFilterHandler] using hnot
    have h1 := List.any_eq_false.mp hany g hg
    rw [Bool.and_comm]
    simpa using h1
  have hhas : _defaultHasFilterHandler (L ++ [v]) (some v) = true := by
    simp [_defaultHasFilterHandler, List.any_append, jvalJleRefl]
  have step2 : (BaseMixin.filter (mkDefaultChart (L ++ [v])) (some v)).filters =
      _defaultRemoveFilterHandler (L ++ [v]) v := by
    simp [BaseMixin.filter, BaseMixin.applyFilters, BaseMixin.toggleOne, mkDefaultChart,
      hw, hhas]
  rw [step2, removeHandler_append L v hmem]

/-- C3 witness: a concrete instantiation of the toggle symmetry. -/
theorem filter_toggle_symmetry_witness :
    List.Perm
      (BaseMixin.filter
        (BaseMixin.filter (mkDefaultChart [JVal.prim (JScalar.int 5)])
          (some (JVal.prim (JScalar.int 3)))) (some (JVal.prim (JScalar.int 3)))).filters
      [JVal.prim (JScalar.int 5)] :=
  filter_toggle_symmetry [JVal.prim (JScalar.int 5)] (JVal.prim (JScalar.int 3))
    (by decide) (by decide)

/-- C4: the default filter handler performs exactly the source's dispatch: an
empty list clears the dimension filter; a single filter without an
`isFiltered` predicate goes to `filterExact`; a single filter with an
`isFiltered` predicate and `filterType` equal to `RangedFilter` goes to
`filterRange`; every other case installs via `filterFunction` a predicate
accepting a datum iff some filter accepts it through its `isFiltered`
predicate or is value-equal to it; and the handler returns the filter list. -/
theorem defaultFilterHandler_dispatch [LinearOrder α] (filters : List (CFilter α)) :
    (_defaultFilterHandler filters).2 = filters ∧
    (filters = [] → (_defaultFilterHandler filters).1 = DimFilterState.cleared) ∧
    (∀ f, filters = [f] → f.hasIsFiltered = false →
      (_defaultFilterHandler filters).1 = DimFilterState.exact f) ∧
    (∀ f, filters = [f] → f.hasIsFiltered = true → f.filterTypeOf = some "RangedFilter" →
      (_defaultFilterHandler filters).1 = DimFilterState.range f) ∧
    ((2 ≤ filters.length ∨
        ∃ f, filters = [f] ∧ f.hasIsFiltered = true ∧ f.filterTypeOf ≠ some "RangedFilter") →
      ∃ p, (_defaultFilterHandler filters).1 = DimFilterState.func p ∧
        ∀ d, p d = true ↔ ∃ f ∈ filters, acceptOne f d = true) := by
  refine ⟨?_, ?_, ?_, ?_, ?_⟩
  · match filters with
    | [] => rfl
    | [f] =>
        simp only [_defaultFilterHandler]
        split <;> [rfl; skip]
        split <;> rfl
    | f :: g :: rest => rfl
  · rintro rfl; rfl
  · rintro f rfl hf
    simp [_defaultFilterHandler, hf]
  · rintro f rfl hf ht
    simp [_defaultFilterHandler, hf, ht]
  · intro hcase
    match filters, hcase with
    | [], Or.inl h => simp at h
    | [], Or.inr ⟨f, hf, _⟩ => exact absurd hf (by simp)
    | [f], Or.inl h => simp at h
    | [f], Or.inr ⟨g, hg, hif, ht⟩ =>
        obtain rfl : f = g := by simpa using hg
        refine ⟨fun d => [f].any (fun x => acceptOne x d), ?_, ?_⟩
        · simp [_defaultFilterHandler, hif, ht]
        · intro d; simp [List.any_eq_true]
    | f :: g :: rest, _ =>
        refine ⟨fun d => (f :: g :: rest).any (fun x => acceptOne x d), rfl, ?_⟩
        intro d; simp [List.any_eq_true]

/-- C4 witness: concrete instantiations driving each dispatch branch. -/
theorem defaultFilterHandler_dispatch_witness :
    (_defaultFilterHandler ([] : List (CFilter Int))).1 = DimFilterState.cleared ∧
    (_defaultFilterHandler [CFilter.plain (7 : Int)]).1 =
      DimFilterState.exact (CFilter.plain 7) ∧
    (_defaultFilterHandler
        [CFilter.structured (fun d => decide (d < (3 : Int))) (some "RangedFilter")]).1 =
      DimFilterState.range (CFilter.structured (fun d => decide (d < (3 : Int))) (some "RangedFilter")) ∧
    ∃ p, (_defaultFilterHandler [CFilter.plain (1 : Int), CFilter.plain 2]).1 =
        DimFilterState.func p ∧
      ∀ d, p d = true ↔ ∃ f ∈ [CFilter.plain (1 : Int), CFilter.plain 2], acceptOne f d = true :=
  ⟨(defaultFilterHandler_dispatch []).2.1 rfl,
   (defaultFilterHandler_dispatch [CFilter.plain (7 : Int)]).2.2.1 (CFilter.plain 7) rfl rfl,
   (defaultFilterHandler_dispatch
      [CFilter.structured (fun d => decide (d < (3 : Int))) (some "RangedFilter")]).2.2.2.1
      (CFilter.structured (fun d => decide (d < (3 : Int))) (some "RangedFilter")) rfl rfl rfl,
   (defaultFilterHandler_dispatch [CFilter.plain (1 : Int), CFilter.plain 2]).2.2.2.2
      (Or.inl (by simp))⟩

/-- C5: with the default mandatory attribute list `['dimension', 'group']`,
`render()` throws an `InvalidStateException` whose message names the chart's
anchor whenever the dimension or the group attribute is unset or falsy, and
returns normally when both are truthy. -/
theorem render_mandatory_attributes (c : MChart)
    (hlist : c.mandatoryAttributesList = ["dimension", "group"]) :
    ((c.dimension = false ∨ c.group = false) →
      ∃ a, a ∈ c.mandatoryAttributesList ∧
        render c = Except.error (DCError.invalidState (mandatoryMsg a c.anchorName)) ∧
        ∃ s t, mandatoryMsg a c.anchorName = s ++ (c.anchorName ++ t)) ∧
    (c.dimension = true → c.group = true → render c = Except.ok c) := by
  have hmsg : ∀ a : String, mandatoryMsg a c.anchorName =
      ("Mandatory attribute chart." ++ a ++ " is missing on chart[#") ++
        (c.anchorName ++ "]") := by
    intro a
    simp [mandatoryMsg, String.append_assoc]
  constructor
  · intro hfalsy
    cases hd : c.dimension with
    | false =>
        refine ⟨"dimension", by simp [hlist], ?_, ?_⟩
        · simp [render, hlist, checkForMandatoryAttributes, MChart.attrTruthy, hd,
            Bind.bind, Except.bind, Functor.map, Except.map]
        · exact ⟨_, _, hmsg "dimension"⟩
    | true =>
        have hg : c.group = false := by
          rcases hfalsy with h | h
          · rw [hd] at h; exact absurd h (by simp)
          · exact h
        refine ⟨"group", by simp [hlist], ?_, ?_⟩
        · simp [render, hlist, checkForMandatoryAttributes, MChart.attrTruthy, hd, hg,
            Bind.bind, Except.bind, Functor.map, Except.map]
        · exact ⟨_, _, hmsg "group"⟩
  · intro hd hg
    simp [render, hlist, checkForMandatoryAttributes, MChart.attrTruthy, hd, hg,
            Bind.bind, Except.bind, Functor.map, Except.map, Pure.pure, Except.pure]

/-- C5 witness: a chart with a falsy dimension fails to render with the
anchor-naming message, and one with both attributes truthy renders. -/
theorem render_mandatory_attributes_witness :
    (∃ a, a ∈ (MChart.mk false true ["dimension", "group"] "chart-1").mandatoryAttributesList ∧
      render (MChart.mk false true ["dimension", "group"] "chart-1") =
        Except.error (DCError.invalidState (mandatoryMsg a "chart-1")) ∧
      ∃ s t, mandatoryMsg a "chart-1" = s ++ ("chart-1" ++ t)) ∧
    render (MChart.mk true true ["dimension", "group"] "chart-1") =
      Except.ok (MChart.mk true true ["dimension", "group"] "chart-1") :=
  ⟨(render_mandatory_attributes (MChart.mk false true ["dimension", "group"] "chart-1")
      rfl).1 (Or.inl rfl),
   (render_mandatory_attributes (MChart.mk true true ["dimension", "group"] "chart-1")
      rfl).2 rfl rfl⟩

/-- C6: evaluating the commit-handler protocol at concrete inputs — the source
invokes the commit handler of `renderGroup` with the flag `false` (not `true`
as documented for a render), the error-first callback gates the group-wide
notification (an error is logged and `renderAll`/`redrawAll` is never
reached), and a successful callback reaches it. -/
theorem renderGroup_flag_and_gating :
    renderGroup (GChart.mk (some (fun _ => none))) =
      [GroupEvent.commitCalled false, GroupEvent.renderAllCalled] ∧
    GroupEvent.commitCalled true ∉ renderGroup (GChart.mk (some (fun _ => none))) ∧
    renderGroup (GChart.mk (some (fun _ => some "boom"))) =
      [GroupEvent.commitCalled false, GroupEvent.errorLogged "boom"] ∧
    GroupEvent.renderAllCalled ∉ renderGroup (GChart.mk (some (fun _ => some "boom"))) ∧
    redrawGroup (GChart.mk (some (fun _ => some "boom"))) =
      [GroupEvent.commitCalled false, GroupEvent.errorLogged "boom"] ∧
    GroupEvent.redrawAllCalled ∉ redrawGroup (GChart.mk (some (fun _ => some "boom"))) ∧
    redrawGroup (GChart.mk (some (fun _ => none))) =
      [GroupEvent.commitCalled false, GroupEvent.redrawAllCalled] ∧
    redrawGroup (GChart.mk none) = [GroupEvent.redrawAllCalled] ∧
    renderGroup (GChart.mk none) = [GroupEvent.renderAllCalled] := by
  refine ⟨rfl, ?_, rfl, ?_, rfl, ?_, rfl, rfl, rfl⟩ <;> decide

/-- C7: configuring a caller-supplied ring-size percentage function only
stores it; a subsequent render throws a BadArgument error exactly when the
function's result is a non-array, has a length different from the ring count,
or has fractions not summing to 1 within tolerance; and rendering with the
default policy does not throw. -/
theorem relativeRingSizes_validation (c : SunburstChart) (f : Nat → PctResult) :
    (ringSizesSet c (RingSizes.relativeRingSizes f)).ringSizes =
      RingSizes.relativeRingSizes f ∧
    ((∃ e, renderSunburst (ringSizesSet c (RingSizes.relativeRingSizes f)) =
        Except.error (DCError.badArgument e)) ↔
      (f c.ringCount = PctResult.nonArray ∨
        ∃ xs, f c.ringCount = PctResult.arr xs ∧
          (xs.length ≠ c.ringCount ∨ |xs.sum - 1| > NEGLIGIBLE_NUMBER))) ∧
    (∃ ts, renderSunburst (ringSizesSet c RingSizes.defaultRingSizes) = Except.ok ts) := by
  refine ⟨rfl, ?_, ⟨_, rfl⟩⟩
  cases h : f c.ringCount with
  | nonArray =>
      simp [renderSunburst, ringFractions, ringSizesSet, validateRelativeRingSizes, h,
        Except.map]
  | arr xs =>
      by_cases hl : xs.length = c.ringCount
      · by_cases hs : |xs.sum - 1| > NEGLIGIBLE_NUMBER
        · simp [renderSunburst, ringFractions, ringSizesSet, validateRelativeRingSizes, h,
            hl, hs, Except.map]
        · simp [renderSunburst, ringFractions, ringSizesSet, validateRelativeRingSizes, h,
            hl, hs, Except.map]
      · simp [renderSunburst, ringFractions, ringSizesSet, validateRelativeRingSizes, h,
          hl, Except.map]

/-- C8: under the equal ring-size policy every ring has the identical
thickness `(outerRadius - innerRadius) / ringCount`, and for every ring count
from 2 through 27 render completes without throwing. -/
theorem equalRingSizes_render (c : SunburstChart) (n : Nat)
    (hr : c.ringSizes = equalRingSizes) (hn : c.ringCount = n)
    (h2 : 2 ≤ n) (h27 : n ≤ 27) :
    renderSunburst c =
      Except.ok (List.replicate n ((c.outerRadius - c.innerRadius) / (n : Rat))) := by
  have hn0 : ((n : Rat)) ≠ 0 := by
    have : (0 : ℚ) < (n : ℚ) := by exact_mod_cast Nat.lt_of_lt_of_le (by norm_num) h2
    exact ne_of_gt this
  have hsum : (List.replicate n ((n : Rat)⁻¹)).sum = 1 := by
    rw [List.sum_replicate, nsmul_eq_mul, mul_inv_cancel₀ hn0]
  have hone : ((n : Rat)) * ((n : Rat))⁻¹ = 1 := mul_inv_cancel₀ hn0
  have hcond : ¬ (NEGLIGIBLE_NUMBER < |((n : Rat)) * ((n : Rat))⁻¹ - 1|) := by
    rw [hone]
    norm_num [NEGLIGIBLE_NUMBER]
  simp [renderSunburst, ringFractions, hr, equalRingSizes, hn, validateRelativeRingSizes,
    hcond, Except.map, List.map_replicate, div_eq_mul_inv]

/-- C8 witness: 27 equal rings render without error to identical
thicknesses. -/
theorem equalRingSizes_render_witness :
    renderSunburst (SunburstChart.mk 30 100 27 equalRingSizes) =
      Except.ok (List.replicate 27 (((100 : Rat) - 30) / (27 : Rat))) :=
  equalRingSizes_render (SunburstChart.mk 30 100 27 equalRingSizes) 27 rfl rfl
    (by norm_num) (by norm_num)

/-- C9: under the default ring-size policy, with at least 3 complete rings,
the pixel thickness of ring 1 is strictly greater than that of ring 2. -/
theorem defaultRingSizes_monotone (c : SunburstChart)
    (hr : c.ringSizes = RingSizes.defaultRingSizes)
    (h3 : 3 ≤ c.ringCount) (hio : c.innerRadius < c.outerRadius) :
    ∃ t1 t2 rest, renderSunburst c = Except.ok (t1 :: t2 :: rest) ∧ t2 < t1 := by
  obtain ⟨m, hm⟩ : ∃ m, c.ringCount = m + 3 := ⟨c.ringCount - 3, by omega⟩
  have hS : 0 < defaultWeightSum c.ringCount := by
    apply List.sum_pos
    · intro x hx
      simp only [List.mem_map, List.mem_range] at hx
      obtain ⟨i, _, rfl⟩ := hx
      have : (0 : ℚ) < ((i + 1 : Nat) : ℚ) := by exact_mod_cast Nat.succ_pos i
      simpa [defaultRingWeight] using inv_pos.mpr this
    · simp [hm]
  have hfrac : ∃ rest, defaultRingFractions c.ringCount =
      (defaultRingWeight 1 / defaultWeightSum c.ringCount) ::
        (defaultRingWeight 2 / defaultWeightSum c.ringCount) :: rest := by
    refine ⟨(List.range (m + 1)).map
      (fun i => defaultRingWeight (i + 2 + 1) / defaultWeightSum c.ringCount), ?_⟩
    rw [defaultRingFractions, hm, map_range_add_three]
  obtain ⟨rest, hfrac⟩ := hfrac
  refine ⟨(c.outerRadius - c.innerRadius) *
      (defaultRingWeight 1 / defaultWeightSum c.ringCount),
    (c.outerRadius - c.innerRadius) *
      (defaultRingWeight 2 / defaultWeightSum c.ringCount),
    rest.map (fun q => (c.outerRadius - c.innerRadius) * q), ?_, ?_⟩
  · simp [renderSunburst, ringFractions, hr, hfrac, Except.map]
  · have hdi : 0 < c.outerRadius - c.innerRadius := sub_pos.mpr hio
    have hw : defaultRingWeight 2 < defaultRingWeight 1 := by
      norm_num [defaultRingWeight]
    have hdiv : defaultRingWeight 2 / defaultWeightSum c.ringCount <
        defaultRingWeight 1 / defaultWeightSum c.ringCount := by gcongr
    exact mul_lt_mul_of_pos_left hdiv hdi

/-- C9 witness: a 3-ring chart with the default policy has ring 1 strictly
thicker than ring 2. -/
theorem defaultRingSizes_monotone_witness :
    ∃ t1 t2 rest,
      renderSunburst (SunburstChart.mk 30 100 3 RingSizes.defaultRingSizes) =
        Except.ok (t1 :: t2 :: rest) ∧ t2 < t1 :=
  defaultRingSizes_monotone (SunburstChart.mk 30 100 3 RingSizes.defaultRingSizes)
    rfl (by norm_num) (by norm_num)

/-- C10: `_computeOrderedGroups` returns a fresh array that is a permutation
of the input sorted ascending by the ordering accessor, and the input array is
left unmodified (the sort operates on a copy, never in place). -/
theorem computeOrderedGroups_ordering [LinearOrder β] (ordering : α → β)
    (st : ArrayStore α) (i : Nat) (hi : i < st.arrays.length) :
    List.Perm
      ((_computeOrderedGroups ordering st i).1.arrays.getD
        (_computeOrderedGroups ordering st i).2 [])
      (st.arrays.getD i []) ∧
    List.Sorted (fun a b => ordering a ≤ ordering b)
      ((_computeOrderedGroups ordering st i).1.arrays.getD
        (_computeOrderedGroups ordering st i).2 []) ∧
    (_computeOrderedGroups ordering st i).1.arrays.getD i [] = st.arrays.getD i [] ∧
    (_computeOrderedGroups ordering st i).2 = st.arrays.length := by
  have harr : (_computeOrderedGroups ordering st i).1.arrays =
      st.arrays ++ [(st.arrays.getD i []).mergeSort
        (fun a b => decide (ordering a ≤ ordering b))] := by
    simp [_computeOrderedGroups, allocCopy, sortInPlace, getD_append_length,
      set_append_length]
  have hj : (_computeOrderedGroups ordering st i).2 = st.arrays.length := rfl
  have hget : (_computeOrderedGroups ordering st i).1.arrays.getD
      (_computeOrderedGroups ordering st i).2 [] =
      (st.arrays.getD i []).mergeSort (fun a b => decide (ordering a ≤ ordering b)) := by
    rw [harr, hj, getD_append_length]
  refine ⟨?_, ?_, ?_, hj⟩
  · rw [hget]; exact List.mergeSort_perm _ _
  · rw [hget]
    have hp : List.Pairwise (fun a b => (decide (ordering a ≤ ordering b)) = true)
        ((st.arrays.getD i []).mergeSort (fun a b => decide (ordering a ≤ ordering b))) :=
      List.sorted_mergeSort
        (fun a b c hab hbc => by
          simp only [decide_eq_true_eq] at hab hbc ⊢
          exact le_trans hab hbc)
        (fun a b => by
          simp only [Bool.or_eq_true, decide_eq_true_eq]
          exact le_total (ordering a) (ordering b))
        (st.arrays.getD i [])
    exact hp.imp (fun h => by simpa using h)
  · rw [harr, getD_append_lt _ _ _ _ hi]

/-- C10 witness: sorting a concrete stored array. -/
theorem computeOrderedGroups_ordering_witness :
    List.Perm
      ((_computeOrderedGroups (id : Int → Int) (ArrayStore.mk [[3, 1, 2]]) 0).1.arrays.getD
        (_computeOrderedGroups (id : Int → Int) (ArrayStore.mk [[3, 1, 2]]) 0).2 [])
      ((ArrayStore.mk [[3, 1, 2]]).arrays.getD 0 []) ∧
    List.Sorted (fun a b : Int => id a ≤ id b)
      ((_computeOrderedGroups (id : Int → Int) (ArrayStore.mk [[3, 1, 2]]) 0).1.arrays.getD
        (_computeOrderedGroups (id : Int → Int) (ArrayStore.mk [[3, 1, 2]]) 0).2 []) ∧
    (_computeOrderedGroups (id : Int → Int) (ArrayStore.mk [[3, 1, 2]]) 0).1.arrays.getD 0 [] =
      (ArrayStore.mk [[3, 1, 2]]).arrays.getD 0 [] ∧
    (_computeOrderedGroups (id : Int → Int) (ArrayStore.mk [[3, 1, 2]]) 0).2 =
      (ArrayStore.mk [[3, 1, 2]]).arrays.length :=
  computeOrderedGroups_ordering (id : Int → Int) (ArrayStore.mk [[3, 1, 2]]) 0
    (by norm_num)

end DC
